import Mathlib

/-!
Verification of the reconciliation/merge core of the EventCheckInManager
frontend.  The definitions below are a shallow embedding of the relevant
JavaScript in `src/frontend/src/components/staff/CheckInView.jsx`,
`src/frontend/src/components/admin/LayoutBuilder.jsx` and
`src/frontend/src/services/api.js`.  JS entity ids may be either strings or
numbers, so ids are modelled by an explicit sum type; JS strict equality
`===` is modelled by structural equality on that type, and the
`String(a) === String(b)` pattern used by the layout handlers is modelled by
comparing string coercions.
-/

namespace EventCheckIn

/-- A JavaScript entity id: either a string or a (numeric) id.  Numeric ids
occurring in this app are integral, so `Int` suffices. -/
inductive JSId where
  | str (s : String)
  | num (n : Int)
deriving DecidableEq, Repr

/-- `String(x)` coercion for an id, as JavaScript performs it:
a string coerces to itself, an integral number to its decimal notation. -/
def jsToString : JSId → String
  | JSId.str s => s
  | JSId.num n => toString n

/-- JS truthiness of an optional id value (`null`/`undefined`, the empty
string and the number 0 are falsy; every other id value is truthy). -/
def truthyId : Option JSId → Bool
  | none => false
  | some (JSId.str s) => !(s == "")
  | some (JSId.num n) => !(n == 0)

/-- The string key of an optional guest reference (`String(x)` of the stored
id when one is present). -/
def refKey (o : Option JSId) : Option String := o.map jsToString

/-- A seat of a table: id, position relative to the table origin, optional
guest reference and display status, mirroring the seat objects handled in
`CheckInView.jsx` / `LayoutBuilder.jsx`. -/
structure Seat where
  id : JSId
  posX : ℚ
  posY : ℚ
  guest_id : Option JSId
  status : String
deriving DecidableEq, Repr

/-- A table of the layout, mirroring the table objects of the frontend. -/
structure Table where
  id : JSId
  posX : ℚ
  posY : ℚ
  rotation : ℚ
  width : ℚ
  height : ℚ
  shape : String
  seats : List Seat
deriving DecidableEq, Repr

/-- The layout data held in the `['layout', eventId]` query cache
(`{ tables, floor_plan_url, ... }`); spreads `{ ...oldLayout, tables }`
preserve the non-`tables` fields. -/
structure Layout where
  tables : List Table
  floor_plan_url : Option String
deriving DecidableEq, Repr

/-- A guest record as held in the `['guests', eventId]` query cache. -/
structure Guest where
  id : JSId
  full_name : String
  table_id : Option JSId
  seat_id : Option JSId
  checked_in : Bool
  checked_in_at : Option String
  checked_out_at : Option String
deriving DecidableEq, Repr

/-! ## Geometry transformer

`LayoutBuilder.jsx`, `handleAddTable` (lines 549-557): pointer coordinates
are converted to world (canvas) coordinates by
`x = (pointerPos.x - stage.x()) / stage.scaleX()`; the forward Konva screen
transform for a fixed viewport is `screen = world * scale + pan`. -/

/-- A point in pointer or world space. -/
structure Pt where
  x : ℚ
  y : ℚ
deriving DecidableEq, Repr

/-- The viewport of the Konva stage: pan offset (`stage.x()/y()`) and zoom
scale (`stage.scaleX()/scaleY()`, clamped to a positive range by the UI). -/
structure Viewport where
  panX : ℚ
  panY : ℚ
  scale : ℚ
deriving DecidableEq, Repr

/-- Pointer-to-world conversion, from `handleAddTable` in
`LayoutBuilder.jsx`:
`{ x: (pointerPos.x - stage.x()) / stage.scaleX(), y: ... }`. -/
def toWorld (p : Pt) (v : Viewport) : Pt :=
  { x := (p.x - v.panX) / v.scale, y := (p.y - v.panY) / v.scale }

/-- The forward screen transform applied by the Konva stage for a fixed
viewport: a world point renders at `world * scale + pan`. -/
def toScreen (w : Pt) (v : Viewport) : Pt :=
  { x := w.x * v.scale + v.panX, y := w.y * v.scale + v.panY }

/-! ## Grid snapping

`LayoutBuilder.jsx`, `TableShape` `onDragEnd` (lines 152-165):
`Math.round(node.x() / GRID_SIZE) * GRID_SIZE` with `GRID_SIZE = 20`.
JavaScript `Math.round x` equals `⌊x + 1/2⌋` on finite inputs. -/

/-- The `GRID_SIZE` constant of `LayoutBuilder.jsx`. -/
def GRID_SIZE : ℚ := 20

/-- JavaScript `Math.round`: round half toward positive infinity. -/
def jsRound (q : ℚ) : Int := ⌊q + 1/2⌋

/-- Snap one axis to the grid: `Math.round(x / GRID_SIZE) * GRID_SIZE`. -/
def snapToGrid (q : ℚ) : ℚ := (jsRound (q / GRID_SIZE) : ℚ) * GRID_SIZE

/-! ## Mutation notifications and their reconciliation (CheckInView.jsx)

The socket handlers of `CheckInView.jsx` (lines 281-455) merge pushed
mutation notifications into the two query caches (`guests` and `layout`).
Each handler below is the pure cache updater passed to
`queryClient.setQueriesData`, translated clause by clause. -/

/-- Payload of a `seat_assigned` / `seat_unassigned` notification:
`data.guest_id`, `data.table_id`, `data.seat_id`, and for `seat_assigned`
optionally the full guest object `data.guest`. -/
structure SeatEventData where
  guest_id : JSId
  table_id : JSId
  seat_id : JSId
  guest : Option Guest
deriving DecidableEq, Repr

/-- `seat_unassigned` guest-list updater (CheckInView.jsx lines 319-324):
`g.id === data.guest_id ? { ...g, table_id: null, seat_id: null } : g`
(strict `===` on the raw ids). -/
def seatUnassignedGuests (d : SeatEventData) (gs : List Guest) : List Guest :=
  gs.map fun g =>
    if g.id = d.guest_id then { g with table_id := none, seat_id := none } else g

/-- One seat under `seat_unassigned` (CheckInView.jsx lines 336-339):
`if (String(seat.id) !== String(data.seat_id)) return seat`, else the seat
is cleared (`guest_id: null, status: 'unassigned'`). -/
def unassignSeatStep (seatId : String) (seat : Seat) : Seat :=
  if jsToString seat.id ≠ seatId then seat
  else { seat with guest_id := none, status := "unassigned" }

/-- One table under `seat_unassigned` (CheckInView.jsx lines 330-341):
`if (String(table.id) !== String(data.table_id)) return table`, else the
seats are mapped through `unassignSeatStep`. -/
def seatUnassignedTable (tableId seatId : String) (table : Table) : Table :=
  if jsToString table.id ≠ tableId then table
  else { table with seats := table.seats.map (unassignSeatStep seatId) }

/-- `seat_unassigned` layout updater (CheckInView.jsx lines 327-344):
`{ ...oldLayout, tables: newTables }`. -/
def seatUnassignedLayout (d : SeatEventData) (L : Layout) : Layout :=
  let tid := jsToString d.table_id
  let sid := jsToString d.seat_id
  { L with tables := L.tables.map (seatUnassignedTable tid sid) }

/-- The guest written by the `seat_assigned` guest-list updater:
`{ ...g, ...data.guest, table_id: data.table_id, seat_id: data.seat_id }`;
as `data.guest` is a full guest object, every field of `g` is overridden. -/
def upsertedGuest (srv : Guest) (tid sid : JSId) : Guest :=
  { srv with table_id := some tid, seat_id := some sid }

/-- One guest of the `seat_assigned` upsert map (CheckInView.jsx line 369):
`String(g.id) === guestId ? { ...g, ...data.guest, table_id, seat_id } : g`. -/
def assignGuestStep (srv : Guest) (tid sid : JSId) (guestId : String)
    (g : Guest) : Guest :=
  if jsToString g.id == guestId then upsertedGuest srv tid sid else g

/-- One guest of the `seat_assigned` fallback map (CheckInView.jsx lines
379-381, no `data.guest` payload): only `table_id`/`seat_id` are set. -/
def setGuestSeatStep (tid sid : JSId) (guestId : String) (g : Guest) : Guest :=
  if jsToString g.id == guestId then
    { g with table_id := some tid, seat_id := some sid }
  else g

/-- `seat_assigned` guest-list updater (CheckInView.jsx lines 362-382):
matched by `String(g.id) === guestId` where `guestId = String(data.guest_id)`;
with a full `data.guest` payload the guest is upserted (updated in place when
present, appended otherwise), else only `table_id`/`seat_id` are set. -/
def seatAssignedGuests (d : SeatEventData) (gs : List Guest) : List Guest :=
  let guestId := jsToString d.guest_id
  match d.guest with
  | some srv =>
      if gs.any (fun g => jsToString g.id == guestId) then
        gs.map (assignGuestStep srv d.table_id d.seat_id guestId)
      else gs ++ [upsertedGuest srv d.table_id d.seat_id]
  | none => gs.map (setGuestSeatStep d.table_id d.seat_id guestId)

/-- One seat of the addressed table under `seat_assigned`
(CheckInView.jsx lines 393-402): the addressed seat receives the coerced
guest id (`guest_id: guestId`, a string); any other seat of the same table
whose (truthy) guest reference coerces to `guestId` is cleared. -/
def assignSeatStep (guestId seatId : String) (seat : Seat) : Seat :=
  if jsToString seat.id == seatId then
    { seat with guest_id := some (JSId.str guestId), status := "assigned" }
  else if truthyId seat.guest_id && (refKey seat.guest_id == some guestId)
        && !(jsToString seat.id == seatId) then
    { seat with guest_id := none, status := "unassigned" }
  else seat

/-- One seat of a non-addressed table under `seat_assigned`
(CheckInView.jsx lines 410-415): a (truthy) reference to the reassigned
guest is cleared. -/
def clearSeatStep (guestId : String) (seat : Seat) : Seat :=
  if truthyId seat.guest_id && (refKey seat.guest_id == some guestId) then
    { seat with guest_id := none, status := "unassigned" }
  else seat

/-- One table under `seat_assigned` (CheckInView.jsx lines 388-421):
the addressed table (matched by `String(table.id) === tableId`) maps its
seats through `assignSeatStep`; any other table holding the guest
(`table.seats.some(...)`) maps its seats through `clearSeatStep`. -/
def seatAssignedTable (guestId tableId seatId : String) (table : Table) : Table :=
  if jsToString table.id == tableId then
    { table with seats := table.seats.map (assignSeatStep guestId seatId) }
  else if table.seats.any
      (fun s => truthyId s.guest_id && (refKey s.guest_id == some guestId)) then
    { table with seats := table.seats.map (clearSeatStep guestId) }
  else table

/-- `seat_assigned` layout updater (CheckInView.jsx lines 385-424). -/
def seatAssignedLayout (d : SeatEventData) (L : Layout) : Layout :=
  let gid := jsToString d.guest_id
  let tid := jsToString d.table_id
  let sid := jsToString d.seat_id
  { L with tables := L.tables.map (seatAssignedTable gid tid sid) }

/-- Guest-list updater shared (textually identical) by the
`guest_checked_in` (lines 288-293), `guest_checked_out` (lines 305-310) and
`guest_updated` (lines 434-439) handlers:
`g.id === data.guest.id ? { ...g, ...data.guest } : g` with strict `===`;
as `data.guest` is a full guest object the merge replaces `g` wholesale. -/
def guestObjectUpdate (srv : Guest) (gs : List Guest) : List Guest :=
  gs.map fun g => if g.id = srv.id then srv else g

/-- The closed tagged variant of mutation notifications handled by the
`CheckInView` socket effect. -/
inductive Notif where
  | seat_assigned (d : SeatEventData)
  | seat_unassigned (d : SeatEventData)
  | guest_checked_in (srv : Guest)
  | guest_checked_out (srv : Guest)
  | guest_updated (srv : Guest)
deriving DecidableEq, Repr

/-- The client-visible reconciled model: the two query caches. -/
structure ClientState where
  guests : List Guest
  layout : Layout
deriving DecidableEq, Repr

/-- Reconciliation of one notification into the client model, dispatching
by tag exactly as the socket handlers do. -/
def applyNotif : Notif → ClientState → ClientState
  | Notif.seat_assigned d, st =>
      { guests := seatAssignedGuests d st.guests, layout := seatAssignedLayout d st.layout }
  | Notif.seat_unassigned d, st =>
      { guests := seatUnassignedGuests d st.guests, layout := seatUnassignedLayout d st.layout }
  | Notif.guest_checked_in srv, st => { st with guests := guestObjectUpdate srv st.guests }
  | Notif.guest_checked_out srv, st => { st with guests := guestObjectUpdate srv st.guests }
  | Notif.guest_updated srv, st => { st with guests := guestObjectUpdate srv st.guests }

/-- Restriction of the notification alphabet to the two seat events, used to
describe the states reachable by seat reconciliation alone. -/
inductive SeatEvent where
  | assign (d : SeatEventData)
  | unassign (d : SeatEventData)
deriving DecidableEq, Repr

def applySeatEvent : SeatEvent → Layout → Layout
  | SeatEvent.assign d, L => seatAssignedLayout d L
  | SeatEvent.unassign d, L => seatUnassignedLayout d L

def applySeatEvents : List SeatEvent → Layout → Layout
  | [], L => L
  | e :: es, L => applySeatEvents es (applySeatEvent e L)

/-- Payload sanity of a seat event: a `seat_assigned` notification carries a
guest id with a nonempty string form (real ids are UUID strings). -/
def SeatEventWF : SeatEvent → Prop
  | SeatEvent.assign d => jsToString d.guest_id ≠ ""
  | SeatEvent.unassign _ => True

/-! ## Guest-reference counting and layout well-formedness -/

/-- Does seat `s` hold a guest reference whose string key is `k`? -/
def isRef (k : String) (s : Seat) : Bool := refKey s.guest_id == some k

/-- Number of seats of table `t` referencing guest key `k`. -/
def tableRefCount (k : String) (t : Table) : Nat := t.seats.countP (isRef k)

/-- Number of seats referencing guest key `k` across a table list. -/
def layoutRefCount (k : String) : List Table → Nat
  | [] => 0
  | t :: ts => tableRefCount k t + layoutRefCount k ts

/-- The dual-reference invariant of the spec: no guest id is the guest
reference of more than one seat, across all tables. -/
def UniqueRefs (ts : List Table) : Prop := ∀ k, layoutRefCount k ts ≤ 1

/-- All guest keys referenced by seats, in layout order (with multiplicity). -/
def assignedKeys : List Table → List String
  | [] => []
  | t :: ts => t.seats.filterMap (fun s => refKey s.guest_id) ++ assignedKeys ts

/-- The seat ids of a table, coerced to strings, are pairwise distinct. -/
def SeatKeysNodup (t : Table) : Prop :=
  (t.seats.map (fun s => jsToString s.id)).Nodup

/-- Every guest reference stored in a table is a truthy JS value, i.e.
truthiness coincides with presence (real guest ids are nonempty strings). -/
def RefsTruthy (t : Table) : Prop :=
  ∀ s ∈ t.seats, truthyId s.guest_id = s.guest_id.isSome

/-- Well-formedness of a table list: distinct table keys, per-table distinct
seat keys, truthy guest references. -/
def LayoutWF (ts : List Table) : Prop :=
  (ts.map (fun t => jsToString t.id)).Nodup ∧ ∀ t ∈ ts, SeatKeysNodup t ∧ RefsTruthy t

instance (t : Table) : Decidable (SeatKeysNodup t) :=
  inferInstanceAs (Decidable ((t.seats.map fun s : Seat => jsToString s.id).Nodup))

instance (t : Table) : Decidable (RefsTruthy t) :=
  inferInstanceAs (Decidable (∀ s ∈ t.seats, truthyId s.guest_id = s.guest_id.isSome))

instance (ts : List Table) : Decidable (LayoutWF ts) :=
  inferInstanceAs (Decidable (_ ∧ _))

instance : (e : SeatEvent) → Decidable (SeatEventWF e)
  | SeatEvent.assign d => inferInstanceAs (Decidable (jsToString d.guest_id ≠ ""))
  | SeatEvent.unassign _ => inferInstanceAs (Decidable True)

/-! ## Layout editor model (LayoutBuilder.jsx)

`LayoutBuilder.jsx` keeps the editable layout in the `tables` React state,
guarded by the single `isDraggingRef` boolean.  The component is modelled as
a state machine over the events it reacts to: gesture start/end, the
`layoutData` server-sync effect (lines 341-350), the debounced autosave
timer (`triggerAutoSave`, lines 418-436) and the manual save button
(`handleSaveLayout`, lines 570-582).  Save outcomes are recorded in two
logs; the code's `saveLayoutMutation` has an `onSuccess` that only
invalidates queries and no `onError`, so neither outcome mutates the local
`tables` state. -/

def CANVAS_WIDTH : ℚ := 2000
def CANVAS_HEIGHT : ℚ := 1500

/-- Delay of the autosave quiescence timer: `setTimeout(..., 1000)`. -/
def AUTOSAVE_DELAY_MS : Nat := 1000

/-- The `config` object sent with every layout commit. -/
structure LayoutConfig where
  grid_size : ℚ
  snap_to_grid : Bool
  canvas_width : ℚ
  canvas_height : ℚ
  show_grid : Bool
deriving DecidableEq, Repr

/-- A layout commit payload: the latest full table list plus the layout
settings — never a diff. -/
structure SavePayload where
  tables : List Table
  floor_plan_url : Option String
  config : LayoutConfig
deriving DecidableEq, Repr

/-- The payload built by `triggerAutoSave` / `handleSaveLayout`. -/
def mkSavePayload (tables : List Table) (floorPlanUrl : Option String)
    (showGrid : Bool) : SavePayload :=
  { tables := tables
    floor_plan_url := floorPlanUrl
    config :=
      { grid_size := GRID_SIZE
        snap_to_grid := true
        canvas_width := CANVAS_WIDTH
        canvas_height := CANVAS_HEIGHT
        show_grid := showGrid } }

/-- The editor surface state: local tables model, sidebar settings, the
gesture-suppression flag (`isDraggingRef`), the pending autosave timer
(delay in ms plus the payload its closure captured), and the logs of
successfully / unsuccessfully committed payloads. -/
structure BuilderModel where
  tables : List Table
  floorPlanUrl : Option String
  showGrid : Bool
  isDragging : Bool
  pendingSave : Option (Nat × SavePayload)
  sentOk : List SavePayload
  sentFail : List SavePayload
deriving DecidableEq, Repr

/-- `triggerAutoSave(updatedTables)` (LayoutBuilder.jsx lines 418-436):
`clearTimeout` on any pending timer, then a fresh 1000 ms timer whose elapse
will commit the full `updatedTables` plus settings. -/
def triggerAutoSave (updatedTables : List Table) (m : BuilderModel) : BuilderModel :=
  let p := mkSavePayload updatedTables m.floorPlanUrl m.showGrid
  { m with pendingSave := some (AUTOSAVE_DELAY_MS, p) }

/-- `handleTableDragEnd` (lines 442-451): write the (already snapped)
position into the table matched by strict `===` on ids. -/
def commitTablePos (tableId : JSId) (pos : ℚ × ℚ) (ts : List Table) : List Table :=
  ts.map fun t => if t.id = tableId then { t with posX := pos.1, posY := pos.2 } else t

def setSeatPos (seatId : JSId) (pos : ℚ × ℚ) (s : Seat) : Seat :=
  if s.id = seatId then { s with posX := pos.1, posY := pos.2 } else s

/-- `handleSeatDragEnd` (lines 453-467): write the raw drop position into
the seat matched by strict `===` on table and seat ids (seats do not snap). -/
def commitSeatPos (tableId seatId : JSId) (pos : ℚ × ℚ) (ts : List Table) : List Table :=
  ts.map fun t =>
    if t.id ≠ tableId then t
    else { t with seats := t.seats.map (setSeatPos seatId pos) }

/-- `TableShape` `onDragEnd` (lines 152-164): the drop point is snapped per
axis to the grid before being committed. -/
def tableDropPosition (drop : ℚ × ℚ) : ℚ × ℚ :=
  (snapToGrid drop.1, snapToGrid drop.2)

/-- Record a commit outcome: `onSuccess` only invalidates queries and the
mutation has no `onError`, so neither branch touches the local model. -/
def recordOutcome (ok : Bool) (p : SavePayload) (m : BuilderModel) : BuilderModel :=
  if ok then { m with sentOk := m.sentOk ++ [p] }
  else { m with sentFail := m.sentFail ++ [p] }

/-- The events the editor surface reacts to. -/
inductive BuilderEvent where
  | dragStart
  | tableDragEnd (tableId : JSId) (drop : ℚ × ℚ)
  | seatDragEnd (tableId seatId : JSId) (pos : ℚ × ℚ)
  | serverSync (remote : List Table)
  | autosaveFire (ok : Bool)
  | manualSave (ok : Bool)
deriving DecidableEq, Repr

/-- One step of the editor surface.  `dragStart` raises `isDraggingRef`;
`tableDragEnd` lowers it, commits the snapped position and schedules an
autosave; `seatDragEnd` commits and schedules (the code never lowers the
flag there); `serverSync` is the `layoutData` effect, dropped wholesale
while `isDraggingRef` is set; `autosaveFire`/`manualSave` send the pending
resp. current full state. -/
def builderStep (m : BuilderModel) : BuilderEvent → BuilderModel
  | BuilderEvent.dragStart => { m with isDragging := true }
  | BuilderEvent.tableDragEnd tid drop =>
      let nt := commitTablePos tid (tableDropPosition drop) m.tables
      triggerAutoSave nt { m with isDragging := false, tables := nt }
  | BuilderEvent.seatDragEnd tid sid pos =>
      let nt := commitSeatPos tid sid pos m.tables
      triggerAutoSave nt { m with tables := nt }
  | BuilderEvent.serverSync remote =>
      if m.isDragging then m else { m with tables := remote }
  | BuilderEvent.autosaveFire ok =>
      match m.pendingSave with
      | none => m
      | some (_, p) => recordOutcome ok p { m with pendingSave := none }
  | BuilderEvent.manualSave ok =>
      recordOutcome ok (mkSavePayload m.tables m.floorPlanUrl m.showGrid) m

def builderRun (m : BuilderModel) : List BuilderEvent → BuilderModel
  | [] => m
  | e :: es => builderRun (builderStep m e) es

/-! ## Check-in mutation path

The server handlers behind `guestsAPI.checkIn` / `guestsAPI.checkOut`
(services/api.js lines 176-177) are not part of the repository sources. -/

/-- Modelled from the spec: the server-side check-in handler behind
`guestsAPI.checkIn` (`POST /events/:eventId/checkin`); the backend source is
missing from the repository.  Per the spec, check-in sets the flag and
refreshes the check-in timestamp, leaving the check-out timestamp alone. -/
def checkInGuest (now : String) (g : Guest) : Guest :=
  { g with checked_in := true, checked_in_at := some now }

/-- Modelled from the spec: the server-side check-out handler behind
`guestsAPI.checkOut` (`POST /events/:eventId/checkout`); the backend source
is missing from the repository.  Per the spec, check-out clears the flag and
sets the check-out timestamp without clearing the check-in timestamp —
history is additive. -/
def checkOutGuest (now : String) (g : Guest) : Guest :=
  { g with checked_in := false, checked_out_at := some now }

/-! ## Statement-level predicates -/

/-- Payload sanity of a notification: when a `seat_assigned` notification
carries a full guest object, that object is the guest the notification's
`guest_id` denotes (the server sends the assigned guest itself). -/
def NotifWF : Notif → Prop
  | Notif.seat_assigned d =>
      ∀ srv, d.guest = some srv → jsToString srv.id = jsToString d.guest_id
  | _ => True

/-- The atomic effect claimed for `seat_assigned` on a layout: the addressed
seat of the addressed table ends up referencing the notification's guest,
and no other seat of any table still references that guest after the step. -/
def AssignEffect (d : SeatEventData) (L : Layout) : Prop :=
  ∀ t ∈ (seatAssignedLayout d L).tables, ∀ s ∈ t.seats,
    ((jsToString t.id = jsToString d.table_id ∧ jsToString s.id = jsToString d.seat_id) →
        s.guest_id = some (JSId.str (jsToString d.guest_id))) ∧
    (¬(jsToString t.id = jsToString d.table_id ∧ jsToString s.id = jsToString d.seat_id) →
        refKey s.guest_id ≠ some (jsToString d.guest_id))

/-! ## Concrete fixtures used by witnesses and counterexamples -/

/-- A seat referencing guest `g`. -/
def seatRef (i g : String) : Seat :=
  { id := JSId.str i, posX := 0, posY := 0, guest_id := some (JSId.str g),
    status := "assigned" }

/-- An empty seat. -/
def seatEmpty (i : String) : Seat :=
  { id := JSId.str i, posX := 0, posY := 0, guest_id := none, status := "unassigned" }

/-- A round table with the given seats. -/
def mkTable (i : String) (ss : List Seat) : Table :=
  { id := JSId.str i, posX := 100, posY := 100, rotation := 0, width := 120,
    height := 120, shape := "round", seats := ss }

/-- Two-table fixture layout: guest g1 at tableA/s1, guest g2 at tableB/s3. -/
def fixtureLayout : Layout :=
  { tables :=
      [mkTable "tableA" [seatRef "s1" "g1", seatEmpty "s2"],
       mkTable "tableB" [seatRef "s3" "g2", seatEmpty "s4"]]
    floor_plan_url := none }

/-- A guest fixture. -/
def mkGuest (i : String) : Guest :=
  { id := JSId.str i, full_name := i, table_id := none, seat_id := none,
    checked_in := false, checked_in_at := none, checked_out_at := none }

/-- A table whose ids are JS numbers, for the coercion fixtures. -/
def tableNum : Table :=
  { id := JSId.num 11, posX := 100, posY := 100, rotation := 0, width := 120,
    height := 120, shape := "round",
    seats := [{ id := JSId.num 22, posX := 0, posY := 0, guest_id := none,
                status := "unassigned" }] }

/-- A table whose ids are the string forms of `tableNum`'s ids, seat
referencing guest "77". -/
def tableStr : Table :=
  { id := JSId.str "11", posX := 100, posY := 100, rotation := 0, width := 120,
    height := 120, shape := "round",
    seats := [{ id := JSId.str "22", posX := 0, posY := 0,
                guest_id := some (JSId.str "77"), status := "assigned" }] }

/-! ## Theorems -/

/-- A map whose function fixes every element of the list is the identity. -/
theorem list_map_self {α : Type} {f : α → α} {l : List α}
    (h : ∀ a ∈ l, f a = a) : l.map f = l := by
  induction l with
  | nil => rfl
  | cons a t ih =>
      simp only [List.map_cons, List.cons.injEq]
      exact ⟨h a (by simp), ih fun b hb => h b (by simp [hb])⟩

/-- C4: the pointer-to-world conversion computes
`x = (pointer.x - viewport.panX) / viewport.scale` (and likewise for y), is
a pure function of its arguments, and for every viewport with nonzero scale
it exactly inverts the forward screen transform: converting a world point to
screen and back returns the same world point. -/
theorem toWorld_inverts_screen_transform (p w : Pt) (v : Viewport)
    (hs : v.scale ≠ 0) :
    toWorld p v = { x := (p.x - v.panX) / v.scale, y := (p.y - v.panY) / v.scale } ∧
    toWorld (toScreen w v) v = w := by
  refine ⟨rfl, ?_⟩
  obtain ⟨wx, wy⟩ := w
  simp only [toWorld, toScreen]
  congr 1
  · rw [add_sub_cancel_right]
    exact mul_div_cancel_right₀ wx hs
  · rw [add_sub_cancel_right]
    exact mul_div_cancel_right₀ wy hs

/-- Witness for C4 at world point (3,4) and viewport pan (1,1), scale 2. -/
theorem toWorld_inverts_screen_transform_witness :
    toWorld (toScreen { x := 3, y := 4 } { panX := 1, panY := 1, scale := 2 })
        { panX := 1, panY := 1, scale := 2 } = { x := 3, y := 4 } :=
  (toWorld_inverts_screen_transform { x := 0, y := 0 } { x := 3, y := 4 }
      { panX := 1, panY := 1, scale := 2 } (by norm_num)).2

/-- C5: on table drag end the committed position is each axis of the drop
point rounded to the nearest multiple of the grid size (the snapped value is
a multiple of `GRID_SIZE` within `GRID_SIZE / 2` of the drop coordinate, and
the drag-end step writes exactly the snapped pair into the tables model);
in particular the drop point (240,238) snaps to (240,240), and committing it
moves a table from (100,100) to (240,240) in the tables model. -/
theorem dragEnd_commits_snapped_position :
    (∀ q : ℚ, (∃ n : ℤ, snapToGrid q = n * GRID_SIZE) ∧
        |snapToGrid q - q| ≤ GRID_SIZE / 2) ∧
    (∀ (m : BuilderModel) (tid : JSId) (drop : ℚ × ℚ),
        (builderStep m (BuilderEvent.tableDragEnd tid drop)).tables
          = commitTablePos tid (snapToGrid drop.1, snapToGrid drop.2) m.tables) ∧
    tableDropPosition (240, 238) = (240, 240) ∧
    commitTablePos (JSId.str "T") (240, 240) [mkTable "T" []]
      = [{ mkTable "T" [] with posX := 240, posY := 240 }] := by
  refine ⟨?_, ?_, ?_, ?_⟩
  · intro q
    refine ⟨⟨jsRound (q / GRID_SIZE), rfl⟩, ?_⟩
    have h1 : ((⌊q / 20 + 1 / 2⌋ : ℤ) : ℚ) ≤ q / 20 + 1 / 2 := Int.floor_le _
    have h2 : q / 20 + 1 / 2 - 1 < ((⌊q / 20 + 1 / 2⌋ : ℤ) : ℚ) :=
      Int.sub_one_lt_floor _
    simp only [snapToGrid, jsRound, GRID_SIZE]
    rw [abs_le]
    constructor
    · linarith
    · linarith
  · intro m tid drop
    rfl
  · norm_num [tableDropPosition, snapToGrid, jsRound, GRID_SIZE]
  · rfl

/-- C8: for every guest, checking in then checking out yields
`checked_in = false` with the check-in timestamp unchanged and the check-out
timestamp set; a later re-check-in sets `checked_in = true` and refreshes
the check-in timestamp without clearing the check-out timestamp; since the
guest is arbitrary, the cycle may repeat indefinitely.  The check-in /
check-out server handlers are modelled from the spec (their source is not in
the repository). -/
theorem checkin_checkout_cycle (g : Guest) (t1 t2 t3 : String) :
    (checkOutGuest t2 g).checked_in_at = g.checked_in_at ∧
    (checkInGuest t3 g).checked_out_at = g.checked_out_at ∧
    ((checkOutGuest t2 (checkInGuest t1 g)).checked_in = false ∧
     (checkOutGuest t2 (checkInGuest t1 g)).checked_in_at = some t1 ∧
     (checkOutGuest t2 (checkInGuest t1 g)).checked_out_at = some t2) ∧
    ((checkInGuest t3 (checkOutGuest t2 (checkInGuest t1 g))).checked_in = true ∧
     (checkInGuest t3 (checkOutGuest t2 (checkInGuest t1 g))).checked_in_at = some t3 ∧
     (checkInGuest t3 (checkOutGuest t2 (checkInGuest t1 g))).checked_out_at = some t2) := by
  simp [checkInGuest, checkOutGuest]

/-- C6: every call to the autosave scheduler cancels the pending flush timer
and arms a fresh fixed 1000 ms quiescence timer; when the timer fires with
no intervening call, exactly one commit is sent whose payload is the latest
full table list plus the layout settings (not a diff); two edits to
different entities made within one quiescence window (a table drag and a
seat drag) coalesce into a single flush whose payload reflects both. -/
theorem autosave_debounce_coalesces (m : BuilderModel) (ts1 ts2 : List Table)
    (tidA tidB sid : JSId) (drop pos : ℚ × ℚ) :
    (triggerAutoSave ts2 (triggerAutoSave ts1 m)).pendingSave
        = some (AUTOSAVE_DELAY_MS, mkSavePayload ts2 m.floorPlanUrl m.showGrid) ∧
    ((builderStep (triggerAutoSave ts2 m) (BuilderEvent.autosaveFire true)).sentOk
        = m.sentOk ++ [mkSavePayload ts2 m.floorPlanUrl m.showGrid] ∧
     (builderStep (triggerAutoSave ts2 m) (BuilderEvent.autosaveFire true)).pendingSave
        = none) ∧
    (builderRun m [BuilderEvent.tableDragEnd tidA drop,
        BuilderEvent.seatDragEnd tidB sid pos, BuilderEvent.autosaveFire true]).sentOk
      = m.sentOk ++ [mkSavePayload
          (commitSeatPos tidB sid pos
            (commitTablePos tidA (tableDropPosition drop) m.tables))
          m.floorPlanUrl m.showGrid] := by
  refine ⟨rfl, ⟨rfl, rfl⟩, ?_⟩
  simp [builderRun, builderStep, triggerAutoSave, recordOutcome]

/-- C7: a failed autosave or manual layout commit leaves the local model
(tables, floor plan, settings, gesture flag) exactly as it was and queues no
retry of the failed payload; the next manual or scheduled save is built from
the current full state. -/
theorem save_failure_is_state_based (m : BuilderModel) (nt : List Table) :
    ((builderStep m (BuilderEvent.autosaveFire false)).tables = m.tables ∧
     (builderStep m (BuilderEvent.autosaveFire false)).floorPlanUrl = m.floorPlanUrl ∧
     (builderStep m (BuilderEvent.autosaveFire false)).showGrid = m.showGrid ∧
     (builderStep m (BuilderEvent.autosaveFire false)).isDragging = m.isDragging ∧
     (builderStep m (BuilderEvent.autosaveFire false)).sentOk = m.sentOk ∧
     (builderStep m (BuilderEvent.autosaveFire false)).pendingSave = none) ∧
    ((builderStep m (BuilderEvent.manualSave false)).tables = m.tables ∧
     (builderStep m (BuilderEvent.manualSave false)).floorPlanUrl = m.floorPlanUrl ∧
     (builderStep m (BuilderEvent.manualSave false)).showGrid = m.showGrid ∧
     (builderStep m (BuilderEvent.manualSave false)).isDragging = m.isDragging ∧
     (builderStep m (BuilderEvent.manualSave false)).pendingSave = m.pendingSave ∧
     (builderStep m (BuilderEvent.manualSave false)).sentOk = m.sentOk) ∧
    (builderStep m (BuilderEvent.manualSave true)).sentOk
        = m.sentOk ++ [mkSavePayload m.tables m.floorPlanUrl m.showGrid] ∧
    (triggerAutoSave nt m).pendingSave
        = some (AUTOSAVE_DELAY_MS, mkSavePayload nt m.floorPlanUrl m.showGrid) := by
  refine ⟨?_, ?_, ?_, rfl⟩
  · cases hp : m.pendingSave with
    | none => simp [builderStep, hp]
    | some v => simp [builderStep, hp, recordOutcome]
  · simp [builderStep, recordOutcome]
  · simp [builderStep, recordOutcome]

/-- C2 counterexample: with a drag gesture open on table "A" only, an
incoming layout sync that moves only table "B" is dropped wholesale — "B"'s
buffered geometry stays at x = 100 instead of the notified x = 200 — so the
claimed per-entity-id suppression does not hold: the code keeps a single
`isDraggingRef` boolean for the whole surface and `handleDragStart` ignores
the entity id passed to it. -/
theorem suppression_not_per_entity :
    (builderRun
        { tables := [mkTable "A" [], mkTable "B" []], floorPlanUrl := none,
          showGrid := true, isDragging := false, pendingSave := none,
          sentOk := [], sentFail := [] }
        [BuilderEvent.dragStart,
         BuilderEvent.serverSync
           [mkTable "A" [], { mkTable "B" [] with posX := 200 }]]).tables
      = [mkTable "A" [], mkTable "B" []] ∧
    ({ mkTable "B" [] with posX := 200 } : Table).posX ≠ (mkTable "B" []).posX := by
  constructor
  · rfl
  · norm_num [mkTable]

/-- C2 amended: suppression is per-surface, not per-entity: while any drag
gesture is open (`isDraggingRef` set), every incoming layout sync is dropped
before it reaches the visible model — in particular the suppressed entity's
buffered geometry is unchanged — and the post-gesture commit equals the
locally committed value computed from the local model, never the discarded
remote value. -/
theorem suppression_drops_syncs_while_dragging (m : BuilderModel)
    (remote : List Table) (hd : m.isDragging = true) (tid : JSId)
    (drop : ℚ × ℚ) :
    builderStep m (BuilderEvent.serverSync remote) = m ∧
    (builderRun m [BuilderEvent.serverSync remote,
        BuilderEvent.tableDragEnd tid drop]).tables
      = commitTablePos tid (tableDropPosition drop) m.tables := by
  have h1 : builderStep m (BuilderEvent.serverSync remote) = m := by
    simp [builderStep, hd]
  refine ⟨h1, ?_⟩
  show (builderRun (builderStep m (BuilderEvent.serverSync remote))
      [BuilderEvent.tableDragEnd tid drop]).tables = _
  rw [h1]
  rfl

/-- Witness for the amended C2 at a concrete dragging state. -/
theorem suppression_drops_syncs_while_dragging_witness :
    builderStep
        { tables := [mkTable "A" []], floorPlanUrl := none, showGrid := true,
          isDragging := true, pendingSave := none, sentOk := [], sentFail := [] }
        (BuilderEvent.serverSync []) =
      { tables := [mkTable "A" []], floorPlanUrl := none, showGrid := true,
        isDragging := true, pendingSave := none, sentOk := [], sentFail := [] } :=
  (suppression_drops_syncs_while_dragging _ [] rfl (JSId.str "A") (0, 0)).1

/-- C10: in the `seat_assigned` / `seat_unassigned` layout reconciliation
(and the `seat_assigned` guest-list upsert) entity ids are compared after
string coercion, so a notification carrying numeric ids updates entities
stored under the equivalent string ids and vice versa; the
`guest_checked_in` / `guest_checked_out` / `guest_updated` handlers use
strict `===` on raw ids, so there a numeric/string mismatch leaves the guest
list unchanged.  Concretely: a numeric-id `seat_unassigned` clears a
string-id seat; a string-id `seat_assigned` fills a numeric-id seat; a
numeric-id `seat_assigned` fills a string-id seat; a `guest_checked_in`
whose payload guest has the numeric id 7 does not touch the guest stored
under "7" (the flag stays false), while the `seat_assigned` guest upsert
with the same payload replaces that guest. -/
theorem id_matching_coercion_vs_strict :
    ((seatUnassignedLayout
          { guest_id := JSId.num 77, table_id := JSId.num 11,
            seat_id := JSId.num 22, guest := none }
          { tables := [tableStr], floor_plan_url := none }).tables.map
        fun t => t.seats.map Seat.guest_id) = [[none]] ∧
    ((seatAssignedLayout
          { guest_id := JSId.str "77", table_id := JSId.str "11",
            seat_id := JSId.str "22", guest := none }
          { tables := [tableNum], floor_plan_url := none }).tables.map
        fun t => t.seats.map Seat.guest_id) = [[some (JSId.str "77")]] ∧
    ((seatAssignedLayout
          { guest_id := JSId.num 77, table_id := JSId.num 11,
            seat_id := JSId.num 22, guest := none }
          { tables := [mkTable "11" [seatEmpty "22"]],
            floor_plan_url := none }).tables.map
        fun t => t.seats.map Seat.guest_id) = [[some (JSId.str "77")]] ∧
    guestObjectUpdate { mkGuest "7" with id := JSId.num 7, checked_in := true }
        [mkGuest "7"] = [mkGuest "7"] ∧
    (guestObjectUpdate { mkGuest "7" with id := JSId.num 7, checked_in := true }
        [mkGuest "7"]).map Guest.checked_in = [false] ∧
    seatAssignedGuests
        { guest_id := JSId.num 7, table_id := JSId.num 11,
          seat_id := JSId.num 22,
          guest := some { mkGuest "7" with id := JSId.num 7, checked_in := true } }
        [mkGuest "7"]
      = [upsertedGuest { mkGuest "7" with id := JSId.num 7, checked_in := true }
          (JSId.num 11) (JSId.num 22)] := by
  refine ⟨?_, ?_, ?_, ?_, ?_, ?_⟩ <;> rfl

/-- C9 counterexample: a `seat_assigned` notification addressing table "A"
and seat "Z", neither of which exists in the local layout, is not a no-op:
the defensive scan of the handler still clears the seat of table "B" that
references the notification's guest "G", so the layout changes even though
both the table id and the seat id match no local entity. -/
theorem stale_ids_not_dropped_silently :
    (∀ t ∈ ({ tables := [mkTable "B" [seatRef "sB" "G"]],
              floor_plan_url := none } : Layout).tables,
        jsToString t.id ≠ jsToString (JSId.str "A")) ∧
    (∀ t ∈ ({ tables := [mkTable "B" [seatRef "sB" "G"]],
              floor_plan_url := none } : Layout).tables,
        ∀ s ∈ t.seats, jsToString s.id ≠ jsToString (JSId.str "Z")) ∧
    ((seatAssignedLayout
          { guest_id := JSId.str "G", table_id := JSId.str "A",
            seat_id := JSId.str "Z", guest := none }
          { tables := [mkTable "B" [seatRef "sB" "G"]],
            floor_plan_url := none }).tables.map
        fun t => t.seats.map Seat.guest_id) = [[none]] ∧
    (({ tables := [mkTable "B" [seatRef "sB" "G"]],
        floor_plan_url := none } : Layout).tables.map
        fun t => t.seats.map Seat.guest_id) = [[some (JSId.str "G")]] := by
  refine ⟨by decide, by decide, rfl, rfl⟩

/-- C9 amended: a `seat_unassigned` notification whose table id matches no
table, or whose seat id matches no seat, leaves every table and seat of the
local layout unchanged and raises no error; a `seat_assigned` notification
whose table id matches no table leaves the layout unchanged provided no seat
still references its guest id — otherwise the defensive scan clears those
references; convergence is deferred to the next full pull. -/
theorem stale_notification_is_noop (d : SeatEventData) (L : Layout)
    (hTable : ∀ t ∈ L.tables, jsToString t.id ≠ jsToString d.table_id)
    (hGuest : ∀ t ∈ L.tables, ∀ s ∈ t.seats,
        refKey s.guest_id ≠ some (jsToString d.guest_id)) :
    seatUnassignedLayout d L = L ∧
    seatAssignedLayout d L = L ∧
    (∀ d2 : SeatEventData,
        (∀ t ∈ L.tables, ∀ s ∈ t.seats, jsToString s.id ≠ jsToString d2.seat_id) →
        seatUnassignedLayout d2 L = L) := by
  obtain ⟨ts, fp⟩ := L
  refine ⟨?_, ?_, ?_⟩
  · simp only [seatUnassignedLayout]
    congr 1
    apply list_map_self
    intro t ht
    unfold seatUnassignedTable
    rw [if_pos (hTable t ht)]
  · simp only [seatAssignedLayout]
    congr 1
    apply list_map_self
    intro t ht
    unfold seatAssignedTable
    have hnt : (jsToString t.id == jsToString d.table_id) = false := by
      simpa using hTable t ht
    rw [hnt]
    have hany : (t.seats.any fun s =>
        truthyId s.guest_id && (refKey s.guest_id == some (jsToString d.guest_id)))
          = false := by
      rw [List.any_eq_false]
      intro s hs
      have h := hGuest t ht s hs
      simp [h]
    simp [hany]
  · intro d2 hSeat
    simp only [seatUnassignedLayout]
    congr 1
    apply list_map_self
    intro t ht
    unfold seatUnassignedTable
    by_cases hmt : jsToString t.id ≠ jsToString d2.table_id
    · rw [if_pos hmt]
    · rw [if_neg hmt]
      have hseats : t.seats.map (unassignSeatStep (jsToString d2.seat_id)) = t.seats := by
        apply list_map_self
        intro s hs
        unfold unassignSeatStep
        rw [if_pos (hSeat t ht s hs)]
      rw [hseats]

/-- Witness for the amended C9: an unrelated notification leaves the
fixture layout untouched. -/
theorem stale_notification_is_noop_witness :
    seatUnassignedLayout
        { guest_id := JSId.str "gX", table_id := JSId.str "tX",
          seat_id := JSId.str "sX", guest := none } fixtureLayout
      = fixtureLayout :=
  (stale_notification_is_noop _ fixtureLayout (by decide) (by decide)).1

/-- Mapping an idempotent-on-`l` function twice equals mapping it once. -/
theorem map_map_self {α : Type} {f : α → α} {l : List α}
    (h : ∀ a ∈ l, f (f a) = f a) : (l.map f).map f = l.map f := by
  rw [List.map_map]
  exact List.map_congr_left h

theorem guestObjectUpdate_idem (srv : Guest) (gs : List Guest) :
    guestObjectUpdate srv (guestObjectUpdate srv gs) = guestObjectUpdate srv gs := by
  unfold guestObjectUpdate
  apply map_map_self
  intro g _
  by_cases h : g.id = srv.id
  · simp [h]
  · simp [h]

theorem seatUnassignedGuests_idem (d : SeatEventData) (gs : List Guest) :
    seatUnassignedGuests d (seatUnassignedGuests d gs) = seatUnassignedGuests d gs := by
  unfold seatUnassignedGuests
  apply map_map_self
  intro g _
  by_cases h : g.id = d.guest_id
  · simp [h]
  · simp [h]

theorem unassignSeatStep_idem (sid : String) (s : Seat) :
    unassignSeatStep sid (unassignSeatStep sid s) = unassignSeatStep sid s := by
  unfold unassignSeatStep
  by_cases h : jsToString s.id ≠ sid
  · simp [h]
  · simp [h]

theorem seatUnassignedTable_idem (tid sid : String) (t : Table) :
    seatUnassignedTable tid sid (seatUnassignedTable tid sid t)
      = seatUnassignedTable tid sid t := by
  by_cases h : jsToString t.id ≠ tid
  · have e : seatUnassignedTable tid sid t = t := by
      unfold seatUnassignedTable
      rw [if_pos h]
    rw [e]
    exact e
  · have e : seatUnassignedTable tid sid t
        = { t with seats := t.seats.map (unassignSeatStep sid) } := by
      unfold seatUnassignedTable
      rw [if_neg h]
    rw [e]
    unfold seatUnassignedTable
    rw [if_neg (show ¬(jsToString
        ({ t with seats := t.seats.map (unassignSeatStep sid) } : Table).id ≠ tid)
      from h)]
    congr 1
    exact map_map_self fun s _ => unassignSeatStep_idem sid s

theorem seatUnassignedLayout_idem (d : SeatEventData) (L : Layout) :
    seatUnassignedLayout d (seatUnassignedLayout d L) = seatUnassignedLayout d L := by
  simp only [seatUnassignedLayout]
  congr 1
  exact map_map_self fun t _ => seatUnassignedTable_idem _ _ t

theorem assignSeatStep_idem (g sid : String) (s : Seat) :
    assignSeatStep g sid (assignSeatStep g sid s) = assignSeatStep g sid s := by
  by_cases h1 : (jsToString s.id == sid) = true
  · simp [assignSeatStep, h1]
  · by_cases h2 : (truthyId s.guest_id && (refKey s.guest_id == some g)
        && !(jsToString s.id == sid)) = true
    · have e : assignSeatStep g sid s
          = { s with guest_id := none, status := "unassigned" } := by
        unfold assignSeatStep
        rw [if_neg h1, if_pos h2]
      rw [e]
      unfold assignSeatStep
      simp [h1, truthyId]
    · have e : assignSeatStep g sid s = s := by
        unfold assignSeatStep
        rw [if_neg h1, if_neg h2]
      rw [e]
      exact e

theorem clearSeatStep_idem (g : String) (s : Seat) :
    clearSeatStep g (clearSeatStep g s) = clearSeatStep g s := by
  by_cases h : (truthyId s.guest_id && (refKey s.guest_id == some g)) = true
  · have e : clearSeatStep g s
        = { s with guest_id := none, status := "unassigned" } := by
      unfold clearSeatStep
      rw [if_pos h]
    rw [e]
    unfold clearSeatStep
    simp [truthyId]
  · have e : clearSeatStep g s = s := by
      unfold clearSeatStep
      rw [if_neg h]
    rw [e]
    exact e

/-- After the defensive clear pass, no seat references the reassigned
guest's key any more. -/
theorem clearSeatStep_not_ref (g : String) (s : Seat) :
    (truthyId (clearSeatStep g s).guest_id
      && (refKey (clearSeatStep g s).guest_id == some g)) = false := by
  by_cases h : (truthyId s.guest_id && (refKey s.guest_id == some g)) = true
  · have e : clearSeatStep g s
        = { s with guest_id := none, status := "unassigned" } := by
      unfold clearSeatStep
      rw [if_pos h]
    rw [e]
    simp [truthyId]
  · have e : clearSeatStep g s = s := by
      unfold clearSeatStep
      rw [if_neg h]
    rw [e]
    simpa using h

theorem seatAssignedTable_idem (g tid sid : String) (t : Table) :
    seatAssignedTable g tid sid (seatAssignedTable g tid sid t)
      = seatAssignedTable g tid sid t := by
  by_cases h1 : (jsToString t.id == tid) = true
  · have e : seatAssignedTable g tid sid t
        = { t with seats := t.seats.map (assignSeatStep g sid) } := by
      unfold seatAssignedTable
      rw [if_pos h1]
    rw [e]
    unfold seatAssignedTable
    rw [if_pos (show (jsToString
        ({ t with seats := t.seats.map (assignSeatStep g sid) } : Table).id == tid) = true
      from h1)]
    congr 1
    exact map_map_self fun s _ => assignSeatStep_idem g sid s
  · by_cases h2 : (t.seats.any fun s =>
        truthyId s.guest_id && (refKey s.guest_id == some g)) = true
    · have e : seatAssignedTable g tid sid t
          = { t with seats := t.seats.map (clearSeatStep g) } := by
        unfold seatAssignedTable
        rw [if_neg h1, if_pos h2]
      rw [e]
      unfold seatAssignedTable
      rw [if_neg (show ¬((jsToString
          ({ t with seats := t.seats.map (clearSeatStep g) } : Table).id == tid) = true)
        from h1)]
      have hany : (({ t with seats := t.seats.map (clearSeatStep g) } : Table).seats.any
          fun s => truthyId s.guest_id && (refKey s.guest_id == some g)) = false := by
        show ((t.seats.map (clearSeatStep g)).any fun s =>
          truthyId s.guest_id && (refKey s.guest_id == some g)) = false
        rw [List.any_map]
        rw [List.any_eq_false]
        intro s _
        simp [Function.comp, clearSeatStep_not_ref g s]
      rw [if_neg (by simp [hany])]
    · have e : seatAssignedTable g tid sid t = t := by
        unfold seatAssignedTable
        rw [if_neg h1, if_neg h2]
      rw [e]
      exact e

theorem seatAssignedLayout_idem (d : SeatEventData) (L : Layout) :
    seatAssignedLayout d (seatAssignedLayout d L) = seatAssignedLayout d L := by
  simp only [seatAssignedLayout]
  congr 1
  exact map_map_self fun t _ => seatAssignedTable_idem _ _ _ t

theorem assignGuestStep_idem (srv : Guest) (tid sid : JSId) (gid : String)
    (g : Guest) :
    assignGuestStep srv tid sid gid (assignGuestStep srv tid sid gid g)
      = assignGuestStep srv tid sid gid g := by
  unfold assignGuestStep
  by_cases h : (jsToString g.id == gid) = true
  · simp [h]
  · simp [h]

theorem setGuestSeatStep_idem (tid sid : JSId) (gid : String) (g : Guest) :
    setGuestSeatStep tid sid gid (setGuestSeatStep tid sid gid g)
      = setGuestSeatStep tid sid gid g := by
  unfold setGuestSeatStep
  by_cases h : (jsToString g.id == gid) = true
  · simp [h]
  · simp [h]

theorem seatAssignedGuests_idem (d : SeatEventData)
    (hWF : ∀ srv, d.guest = some srv → jsToString srv.id = jsToString d.guest_id)
    (gs : List Guest) :
    seatAssignedGuests d (seatAssignedGuests d gs) = seatAssignedGuests d gs := by
  cases hg : d.guest with
  | none =>
      simp only [seatAssignedGuests, hg]
      exact map_map_self fun g _ => setGuestSeatStep_idem _ _ _ g
  | some srv =>
      have hid : jsToString srv.id = jsToString d.guest_id := hWF srv hg
      have hup : (jsToString (upsertedGuest srv d.table_id d.seat_id).id
          == jsToString d.guest_id) = true := by
        simp [upsertedGuest, hid]
      simp only [seatAssignedGuests, hg]
      by_cases hany : (gs.any fun g =>
          jsToString g.id == jsToString d.guest_id) = true
      · rw [if_pos hany]
        have hany2 : ((gs.map (assignGuestStep srv d.table_id d.seat_id
            (jsToString d.guest_id))).any
              fun g => jsToString g.id == jsToString d.guest_id) = true := by
          rw [List.any_map]
          rw [List.any_eq_true] at hany ⊢
          obtain ⟨g, hgm, hkey⟩ := hany
          refine ⟨g, hgm, ?_⟩
          simp only [Function.comp, assignGuestStep, if_pos hkey]
          exact hup
        rw [if_pos hany2]
        exact map_map_self fun g _ => assignGuestStep_idem srv _ _ _ g
      · rw [if_neg hany]
        have hany2 : ((gs ++ [upsertedGuest srv d.table_id d.seat_id]).any
            fun g => jsToString g.id == jsToString d.guest_id) = true := by
          rw [List.any_append]
          simp [hup]
        rw [if_pos hany2]
        apply list_map_self
        intro g hgm
        rcases List.mem_append.mp hgm with hmem | hmem
        · have hanyf : (gs.any fun g =>
              jsToString g.id == jsToString d.guest_id) = false :=
            Bool.eq_false_iff.mpr hany
          have hkey : ¬((jsToString g.id == jsToString d.guest_id) = true) :=
            List.any_eq_false.mp hanyf g hmem
          simp [assignGuestStep, hkey]
        · have hgup : g = upsertedGuest srv d.table_id d.seat_id := by
            simpa using hmem
          subst hgup
          simp [assignGuestStep]

/-- C3: applying the same mutation notification (`seat_assigned`,
`seat_unassigned`, `guest_checked_in`, `guest_checked_out` or
`guest_updated`) twice in succession to any model state yields the same
reconciled model as applying it once, for any well-formed notification (a
`seat_assigned` carrying a full guest object carries the guest its
`guest_id` denotes). -/
theorem notification_idempotent (n : Notif) (st : ClientState) (h : NotifWF n) :
    applyNotif n (applyNotif n st) = applyNotif n st := by
  cases n with
  | seat_assigned d =>
      simp only [applyNotif]
      congr 1
      · exact seatAssignedGuests_idem d h st.guests
      · exact seatAssignedLayout_idem d st.layout
  | seat_unassigned d =>
      simp only [applyNotif]
      congr 1
      · exact seatUnassignedGuests_idem d st.guests
      · exact seatUnassignedLayout_idem d st.layout
  | guest_checked_in srv =>
      simp only [applyNotif]
      congr 1
      exact guestObjectUpdate_idem srv st.guests
  | guest_checked_out srv =>
      simp only [applyNotif]
      congr 1
      exact guestObjectUpdate_idem srv st.guests
  | guest_updated srv =>
      simp only [applyNotif]
      congr 1
      exact guestObjectUpdate_idem srv st.guests

/-- Witness for C3: a concrete `seat_assigned` carrying its guest object is
idempotent on a concrete state. -/
theorem notification_idempotent_witness :
    applyNotif
        (Notif.seat_assigned
          { guest_id := JSId.str "g1", table_id := JSId.str "tableA",
            seat_id := JSId.str "s2", guest := some (mkGuest "g1") })
        (applyNotif
          (Notif.seat_assigned
            { guest_id := JSId.str "g1", table_id := JSId.str "tableA",
              seat_id := JSId.str "s2", guest := some (mkGuest "g1") })
          { guests := [mkGuest "g1"], layout := fixtureLayout })
      = applyNotif
          (Notif.seat_assigned
            { guest_id := JSId.str "g1", table_id := JSId.str "tableA",
              seat_id := JSId.str "s2", guest := some (mkGuest "g1") })
          { guests := [mkGuest "g1"], layout := fixtureLayout } :=
  notification_idempotent _ _ (fun srv hsrv => by cases hsrv; rfl)

/-! ## Lemmas for the dual-reference uniqueness invariant (C1) -/

theorem seatAssignedLayout_tables (d : SeatEventData) (L : Layout) :
    (seatAssignedLayout d L).tables
      = L.tables.map (seatAssignedTable (jsToString d.guest_id)
          (jsToString d.table_id) (jsToString d.seat_id)) := rfl

theorem seatUnassignedLayout_tables (d : SeatEventData) (L : Layout) :
    (seatUnassignedLayout d L).tables
      = L.tables.map (seatUnassignedTable (jsToString d.table_id)
          (jsToString d.seat_id)) := rfl

theorem assignSeatStep_id (g sid : String) (s : Seat) :
    (assignSeatStep g sid s).id = s.id := by
  unfold assignSeatStep
  split
  · rfl
  · split
    · rfl
    · rfl

theorem clearSeatStep_id (g : String) (s : Seat) :
    (clearSeatStep g s).id = s.id := by
  unfold clearSeatStep
  split
  · rfl
  · rfl

theorem unassignSeatStep_id (sid : String) (s : Seat) :
    (unassignSeatStep sid s).id = s.id := by
  unfold unassignSeatStep
  split
  · rfl
  · rfl

theorem seatAssignedTable_id (g tid sid : String) (t : Table) :
    (seatAssignedTable g tid sid t).id = t.id := by
  unfold seatAssignedTable
  split
  · rfl
  · split
    · rfl
    · rfl

theorem seatUnassignedTable_id (tid sid : String) (t : Table) :
    (seatUnassignedTable tid sid t).id = t.id := by
  unfold seatUnassignedTable
  split
  · rfl
  · rfl

/-- In a list whose `f`-image is duplicate-free, at most one element maps to
any given value. -/
theorem countP_key_le_one {α : Type} (f : α → String) (v : String) :
    ∀ l : List α, (l.map f).Nodup → l.countP (fun a => f a == v) ≤ 1 := by
  intro l
  induction l with
  | nil => intro _; simp
  | cons a t ih =>
      intro hnd
      rw [List.map_cons, List.nodup_cons] at hnd
      rw [List.countP_cons]
      by_cases hv : (f a == v) = true
      · have hfa : f a = v := by simpa using hv
        have hzero : t.countP (fun b => f b == v) = 0 := by
          rw [List.countP_eq_zero]
          intro b hb hbv
          apply hnd.1
          rw [List.mem_map]
          refine ⟨b, hb, ?_⟩
          have hfb : f b = v := by simpa using hbv
          rw [hfb, hfa]
        simp [hzero, hv]
      · have hvf : (f a == v) = false := Bool.eq_false_iff.mpr hv
        simp only [hvf]
        simpa using ih hnd.2

theorem countP_congr_mem {α : Type} {p q : α → Bool} :
    ∀ l : List α, (∀ a ∈ l, p a = q a) → l.countP p = l.countP q := by
  intro l
  induction l with
  | nil => intro _; rfl
  | cons a t ih =>
      intro h
      rw [List.countP_cons, List.countP_cons, h a (by simp),
        ih fun b hb => h b (by simp [hb])]

theorem countP_map_le {α : Type} (p : α → Bool) (F : α → α) (l : List α)
    (hF : ∀ a ∈ l, p (F a) = true → p a = true) :
    (l.map F).countP p ≤ l.countP p := by
  rw [List.countP_map]
  exact List.countP_mono_left hF

/-- Per-seat effect of `assignSeatStep` on references to the assigned guest:
under truthy references, the result references `g` exactly at the addressed
seat. -/
theorem assignSeatStep_isRef (g sid : String) (s : Seat)
    (hT : truthyId s.guest_id = s.guest_id.isSome) :
    isRef g (assignSeatStep g sid s) = (jsToString s.id == sid) := by
  by_cases h1 : (jsToString s.id == sid) = true
  · have e : assignSeatStep g sid s
        = { s with guest_id := some (JSId.str g), status := "assigned" } := by
      unfold assignSeatStep
      rw [if_pos h1]
    rw [e, h1]
    simp [isRef, refKey, jsToString]
  · have h1f : (jsToString s.id == sid) = false := Bool.eq_false_iff.mpr h1
    by_cases hRef : (refKey s.guest_id == some g) = true
    · have hsome : s.guest_id.isSome = true := by
        cases ho : s.guest_id with
        | none => rw [ho] at hRef; simp [refKey] at hRef
        | some v => rfl
      have htr : truthyId s.guest_id = true := by rw [hT, hsome]
      have h2 : (truthyId s.guest_id && (refKey s.guest_id == some g)
          && !(jsToString s.id == sid)) = true := by
        rw [htr, hRef, h1f]
        rfl
      have e : assignSeatStep g sid s
          = { s with guest_id := none, status := "unassigned" } := by
        unfold assignSeatStep
        rw [if_neg h1, if_pos h2]
      rw [e, h1f]
      simp [isRef, refKey]
    · have hReff : (refKey s.guest_id == some g) = false := Bool.eq_false_iff.mpr hRef
      have h2 : ¬((truthyId s.guest_id && (refKey s.guest_id == some g)
          && !(jsToString s.id == sid)) = true) := by
        rw [hReff]
        simp
      have e : assignSeatStep g sid s = s := by
        unfold assignSeatStep
        rw [if_neg h1, if_neg h2]
      rw [e, h1f]
      unfold isRef
      exact hReff

/-- After the defensive clear pass, a truthy-referenced seat never
references the reassigned guest. -/
theorem clearSeatStep_isRef_self (g : String) (s : Seat)
    (hT : truthyId s.guest_id = s.guest_id.isSome) :
    isRef g (clearSeatStep g s) = false := by
  by_cases hRef : (refKey s.guest_id == some g) = true
  · have hsome : s.guest_id.isSome = true := by
      cases ho : s.guest_id with
      | none => rw [ho] at hRef; simp [refKey] at hRef
      | some v => rfl
    have htr : truthyId s.guest_id = true := by rw [hT, hsome]
    have h2 : (truthyId s.guest_id && (refKey s.guest_id == some g)) = true := by
      rw [htr, hRef]
      rfl
    have e : clearSeatStep g s
        = { s with guest_id := none, status := "unassigned" } := by
      unfold clearSeatStep
      rw [if_pos h2]
    rw [e]
    simp [isRef, refKey]
  · have hReff : (refKey s.guest_id == some g) = false := Bool.eq_false_iff.mpr hRef
    by_cases h2 : (truthyId s.guest_id && (refKey s.guest_id == some g)) = true
    · rw [hReff] at h2
      simp at h2
    · have e : clearSeatStep g s = s := by
        unfold clearSeatStep
        rw [if_neg h2]
      rw [e]
      unfold isRef
      exact hReff

theorem assignSeatStep_isRef_mono (g sid k : String) (hk : k ≠ g) (s : Seat) :
    isRef k (assignSeatStep g sid s) = true → isRef k s = true := by
  unfold assignSeatStep
  split
  · intro h
    exfalso
    apply hk
    simp [isRef, refKey, jsToString] at h
    exact h.symm
  · split
    · intro h
      simp [isRef, refKey] at h
    · exact fun h => h

theorem clearSeatStep_isRef_mono (g k : String) (s : Seat) :
    isRef k (clearSeatStep g s) = true → isRef k s = true := by
  unfold clearSeatStep
  split
  · intro h
    simp [isRef, refKey] at h
  · exact fun h => h

theorem unassignSeatStep_isRef_mono (sid k : String) (s : Seat) :
    isRef k (unassignSeatStep sid s) = true → isRef k s = true := by
  unfold unassignSeatStep
  split
  · exact fun h => h
  · intro h
    simp [isRef, refKey] at h

/-- A table with no truthy reference to `g` has reference count zero for `g`
when its references are truthy. -/
theorem tableRefCount_eq_zero_of_no_ref (g : String) (t : Table)
    (hR : RefsTruthy t)
    (h : (t.seats.any fun s => truthyId s.guest_id
        && (refKey s.guest_id == some g)) = false) :
    tableRefCount g t = 0 := by
  unfold tableRefCount
  rw [List.countP_eq_zero]
  intro s hs href
  apply List.any_eq_false.mp h s hs
  unfold isRef at href
  have hsome : s.guest_id.isSome = true := by
    cases ho : s.guest_id with
    | none => rw [ho] at href; simp [refKey] at href
    | some v => rfl
  rw [hR s hs, hsome, href]
  rfl

/-- Reference count of the assigned guest after one table's `seat_assigned`
step: at most one on the addressed table, zero elsewhere. -/
theorem tableRefCount_assign_le (g tid sid : String) (t : Table)
    (hS : SeatKeysNodup t) (hR : RefsTruthy t) :
    tableRefCount g (seatAssignedTable g tid sid t)
      ≤ if (jsToString t.id == tid) = true then 1 else 0 := by
  by_cases h : (jsToString t.id == tid) = true
  · have e : seatAssignedTable g tid sid t
        = { t with seats := t.seats.map (assignSeatStep g sid) } := by
      unfold seatAssignedTable
      rw [if_pos h]
    rw [e, if_pos h]
    show (t.seats.map (assignSeatStep g sid)).countP (isRef g) ≤ 1
    rw [List.countP_map]
    show t.seats.countP (fun s => isRef g (assignSeatStep g sid s)) ≤ 1
    rw [countP_congr_mem t.seats
      (fun s hs => assignSeatStep_isRef g sid s (hR s hs))]
    exact countP_key_le_one (fun s : Seat => jsToString s.id) sid t.seats hS
  · rw [if_neg h]
    by_cases h2 : (t.seats.any fun s => truthyId s.guest_id
        && (refKey s.guest_id == some g)) = true
    · have e : seatAssignedTable g tid sid t
          = { t with seats := t.seats.map (clearSeatStep g) } := by
        unfold seatAssignedTable
        rw [if_neg h, if_pos h2]
      rw [e]
      show (t.seats.map (clearSeatStep g)).countP (isRef g) ≤ 0
      rw [List.countP_map]
      show t.seats.countP (fun s => isRef g (clearSeatStep g s)) ≤ 0
      rw [countP_congr_mem t.seats
        (fun s hs => clearSeatStep_isRef_self g s (hR s hs))]
      simp
    · have e : seatAssignedTable g tid sid t = t := by
        unfold seatAssignedTable
        rw [if_neg h, if_neg h2]
      rw [e]
      rw [tableRefCount_eq_zero_of_no_ref g t hR (Bool.eq_false_iff.mpr h2)]

theorem tableRefCount_assign_mono (g tid sid k : String) (hk : k ≠ g)
    (t : Table) :
    tableRefCount k (seatAssignedTable g tid sid t) ≤ tableRefCount k t := by
  unfold seatAssignedTable
  split
  · show (t.seats.map (assignSeatStep g sid)).countP (isRef k)
        ≤ t.seats.countP (isRef k)
    exact countP_map_le _ _ _ fun s _ => assignSeatStep_isRef_mono g sid k hk s
  · split
    · show (t.seats.map (clearSeatStep g)).countP (isRef k)
          ≤ t.seats.countP (isRef k)
      exact countP_map_le _ _ _ fun s _ => clearSeatStep_isRef_mono g k s
    · exact Nat.le_refl _

theorem tableRefCount_unassign_mono (tid sid k : String) (t : Table) :
    tableRefCount k (seatUnassignedTable tid sid t) ≤ tableRefCount k t := by
  unfold seatUnassignedTable
  split
  · exact Nat.le_refl _
  · show (t.seats.map (unassignSeatStep sid)).countP (isRef k)
        ≤ t.seats.countP (isRef k)
    exact countP_map_le _ _ _ fun s _ => unassignSeatStep_isRef_mono sid k s

theorem layoutRefCount_map_le (k : String) (F : Table → Table) :
    ∀ ts : List Table, (∀ t ∈ ts, tableRefCount k (F t) ≤ tableRefCount k t) →
      layoutRefCount k (ts.map F) ≤ layoutRefCount k ts := by
  intro ts
  induction ts with
  | nil => intro _; exact Nat.le_refl _
  | cons t ts ih =>
      intro h
      show tableRefCount k (F t) + layoutRefCount k (ts.map F)
          ≤ tableRefCount k t + layoutRefCount k ts
      exact Nat.add_le_add (h t (by simp)) (ih fun u hu => h u (by simp [hu]))

theorem layoutRefCount_eq_zero (k : String) :
    ∀ ts : List Table, (∀ t ∈ ts, tableRefCount k t = 0) →
      layoutRefCount k ts = 0 := by
  intro ts
  induction ts with
  | nil => intro _; rfl
  | cons t ts ih =>
      intro h
      show tableRefCount k t + layoutRefCount k ts = 0
      rw [h t (by simp), ih fun u hu => h u (by simp [hu])]

/-- Across the whole layout, at most one seat references the assigned guest
after a `seat_assigned` step, given well-formed table/seat keys. -/
theorem layoutRefCount_assign_gkey (g tid sid : String) :
    ∀ ts : List Table, (ts.map fun t => jsToString t.id).Nodup →
      (∀ t ∈ ts, SeatKeysNodup t ∧ RefsTruthy t) →
      layoutRefCount g (ts.map (seatAssignedTable g tid sid)) ≤ 1 := by
  intro ts
  induction ts with
  | nil => intro _ _; exact Nat.zero_le 1
  | cons t ts ih =>
      intro hnd hwf
      rw [List.map_cons] at hnd
      rw [List.nodup_cons] at hnd
      show tableRefCount g (seatAssignedTable g tid sid t)
          + layoutRefCount g (ts.map (seatAssignedTable g tid sid)) ≤ 1
      have hhead := tableRefCount_assign_le g tid sid t
        (hwf t (by simp)).1 (hwf t (by simp)).2
      by_cases h : (jsToString t.id == tid) = true
      · have htid : jsToString t.id = tid := by simpa using h
        rw [if_pos h] at hhead
        have htail : layoutRefCount g (ts.map (seatAssignedTable g tid sid)) = 0 := by
          apply layoutRefCount_eq_zero
          intro u hu
          rw [List.mem_map] at hu
          obtain ⟨u0, hu0, rfl⟩ := hu
          have hune : ¬((jsToString u0.id == tid) = true) := by
            intro hEq
            apply hnd.1
            rw [List.mem_map]
            have : jsToString u0.id = tid := by simpa using hEq
            exact ⟨u0, hu0, this.trans htid.symm⟩
          have hb := tableRefCount_assign_le g tid sid u0
            (hwf u0 (by simp [hu0])).1 (hwf u0 (by simp [hu0])).2
          rw [if_neg hune] at hb
          omega
        omega
      · rw [if_neg h] at hhead
        have htail := ih hnd.2 fun u hu => hwf u (by simp [hu])
        omega

theorem uniqueRefs_assign (d : SeatEventData) (L : Layout)
    (hWF : LayoutWF L.tables) (hU : UniqueRefs L.tables) :
    UniqueRefs (seatAssignedLayout d L).tables := by
  intro k
  rw [seatAssignedLayout_tables]
  by_cases hk : k = jsToString d.guest_id
  · subst hk
    exact layoutRefCount_assign_gkey _ _ _ L.tables hWF.1 hWF.2
  · calc layoutRefCount k (L.tables.map (seatAssignedTable (jsToString d.guest_id)
          (jsToString d.table_id) (jsToString d.seat_id)))
        ≤ layoutRefCount k L.tables :=
          layoutRefCount_map_le k _ L.tables fun t _ =>
            tableRefCount_assign_mono _ _ _ k hk t
      _ ≤ 1 := hU k

theorem uniqueRefs_unassign (d : SeatEventData) (L : Layout)
    (hU : UniqueRefs L.tables) :
    UniqueRefs (seatUnassignedLayout d L).tables := by
  intro k
  rw [seatUnassignedLayout_tables]
  calc layoutRefCount k (L.tables.map (seatUnassignedTable
        (jsToString d.table_id) (jsToString d.seat_id)))
      ≤ layoutRefCount k L.tables :=
        layoutRefCount_map_le k _ L.tables fun t _ =>
          tableRefCount_unassign_mono _ _ k t
    _ ≤ 1 := hU k

theorem map_table_keys (F : Table → Table) (hid : ∀ t, (F t).id = t.id)
    (ts : List Table) :
    (ts.map F).map (fun t => jsToString t.id) = ts.map fun t => jsToString t.id := by
  rw [List.map_map]
  apply List.map_congr_left
  intro t _
  simp [Function.comp, hid t]

theorem seatKeysNodup_map (G : Seat → Seat) (hid : ∀ s, (G s).id = s.id)
    (t : Table) (h : SeatKeysNodup t) :
    SeatKeysNodup { t with seats := t.seats.map G } := by
  show ((t.seats.map G).map fun s => jsToString s.id).Nodup
  rw [List.map_map]
  rw [show ((fun s : Seat => jsToString s.id) ∘ G) = fun s : Seat => jsToString s.id
    from funext fun s => by simp [Function.comp, hid s]]
  exact h

theorem refsTruthy_table_map (G : Seat → Seat) (t : Table)
    (h : ∀ s ∈ t.seats, truthyId (G s).guest_id = (G s).guest_id.isSome) :
    RefsTruthy { t with seats := t.seats.map G } := by
  intro s' hs'
  rw [show ({ t with seats := t.seats.map G } : Table).seats = t.seats.map G
    from rfl, List.mem_map] at hs'
  obtain ⟨s, hs, rfl⟩ := hs'
  exact h s hs

theorem assignSeatStep_truthy (g sid : String) (hg : g ≠ "") (s : Seat)
    (hT : truthyId s.guest_id = s.guest_id.isSome) :
    truthyId (assignSeatStep g sid s).guest_id
      = (assignSeatStep g sid s).guest_id.isSome := by
  unfold assignSeatStep
  split
  · simp [truthyId, hg]
  · split
    · simp [truthyId]
    · exact hT

theorem clearSeatStep_truthy (g : String) (s : Seat)
    (hT : truthyId s.guest_id = s.guest_id.isSome) :
    truthyId (clearSeatStep g s).guest_id
      = (clearSeatStep g s).guest_id.isSome := by
  unfold clearSeatStep
  split
  · simp [truthyId]
  · exact hT

theorem unassignSeatStep_truthy (sid : String) (s : Seat)
    (hT : truthyId s.guest_id = s.guest_id.isSome) :
    truthyId (unassignSeatStep sid s).guest_id
      = (unassignSeatStep sid s).guest_id.isSome := by
  unfold unassignSeatStep
  split
  · exact hT
  · simp [truthyId]

theorem layoutWF_assign (d : SeatEventData) (L : Layout)
    (hg : jsToString d.guest_id ≠ "") (hWF : LayoutWF L.tables) :
    LayoutWF (seatAssignedLayout d L).tables := by
  obtain ⟨hnd, hper⟩ := hWF
  rw [show (seatAssignedLayout d L).tables
    = L.tables.map (seatAssignedTable (jsToString d.guest_id)
        (jsToString d.table_id) (jsToString d.seat_id)) from rfl]
  constructor
  · rw [map_table_keys _ (seatAssignedTable_id _ _ _)]
    exact hnd
  · intro t' ht'
    rw [List.mem_map] at ht'
    obtain ⟨t, ht, rfl⟩ := ht'
    constructor
    · unfold seatAssignedTable
      split
      · exact seatKeysNodup_map _ (assignSeatStep_id _ _) t (hper t ht).1
      · split
        · exact seatKeysNodup_map _ (clearSeatStep_id _) t (hper t ht).1
        · exact (hper t ht).1
    · unfold seatAssignedTable
      split
      · exact refsTruthy_table_map _ t fun s hs =>
          assignSeatStep_truthy _ _ hg s ((hper t ht).2 s hs)
      · split
        · exact refsTruthy_table_map _ t fun s hs =>
            clearSeatStep_truthy _ s ((hper t ht).2 s hs)
        · exact (hper t ht).2

theorem layoutWF_unassign (d : SeatEventData) (L : Layout)
    (hWF : LayoutWF L.tables) :
    LayoutWF (seatUnassignedLayout d L).tables := by
  obtain ⟨hnd, hper⟩ := hWF
  rw [show (seatUnassignedLayout d L).tables
    = L.tables.map (seatUnassignedTable (jsToString d.table_id)
        (jsToString d.seat_id)) from rfl]
  constructor
  · rw [map_table_keys _ (seatUnassignedTable_id _ _)]
    exact hnd
  · intro t' ht'
    rw [List.mem_map] at ht'
    obtain ⟨t, ht, rfl⟩ := ht'
    constructor
    · unfold seatUnassignedTable
      split
      · exact (hper t ht).1
      · exact seatKeysNodup_map _ (unassignSeatStep_id _) t (hper t ht).1
    · unfold seatUnassignedTable
      split
      · exact (hper t ht).2
      · exact refsTruthy_table_map _ t fun s hs =>
          unassignSeatStep_truthy _ s ((hper t ht).2 s hs)

/-- The atomic set-and-clear effect of `seat_assigned` holds on any layout
whose stored guest references are truthy. -/
theorem assignEffect_of_refsTruthy (d : SeatEventData) (L : Layout)
    (hR : ∀ t ∈ L.tables, RefsTruthy t) : AssignEffect d L := by
  unfold AssignEffect
  intro t' ht' s' hs'
  rw [seatAssignedLayout_tables, List.mem_map] at ht'
  obtain ⟨t, ht, rfl⟩ := ht'
  set g := jsToString d.guest_id
  set tid := jsToString d.table_id
  set sid := jsToString d.seat_id
  by_cases hta : (jsToString t.id == tid) = true
  · have e : seatAssignedTable g tid sid t
        = { t with seats := t.seats.map (assignSeatStep g sid) } := by
      unfold seatAssignedTable
      rw [if_pos hta]
    rw [e] at hs' ⊢
    rw [show ({ t with seats := t.seats.map (assignSeatStep g sid) } : Table).seats
      = t.seats.map (assignSeatStep g sid) from rfl, List.mem_map] at hs'
    obtain ⟨s, hs, rfl⟩ := hs'
    constructor
    · rintro ⟨-, hsid⟩
      rw [assignSeatStep_id] at hsid
      have hsid2 : (jsToString s.id == sid) = true := by simpa using hsid
      have e2 : assignSeatStep g sid s
          = { s with guest_id := some (JSId.str g), status := "assigned" } := by
        unfold assignSeatStep
        rw [if_pos hsid2]
      rw [e2]
    · intro hne
      have htid : jsToString t.id = tid := by simpa using hta
      have hsid : jsToString (assignSeatStep g sid s).id ≠ sid := by
        intro hEq
        exact hne ⟨htid, hEq⟩
      rw [assignSeatStep_id] at hsid
      have h1f : (jsToString s.id == sid) = false := by simpa using hsid
      have hfalse : isRef g (assignSeatStep g sid s) = false := by
        rw [assignSeatStep_isRef _ _ s (hR t ht s hs), h1f]
      intro hcontra
      unfold isRef at hfalse
      rw [hcontra] at hfalse
      simp at hfalse
  · constructor
    · rintro ⟨htid2, -⟩
      rw [seatAssignedTable_id] at htid2
      exact absurd (show (jsToString t.id == tid) = true by simpa using htid2) hta
    · intro _ hcontra
      by_cases h2 : (t.seats.any fun s => truthyId s.guest_id
          && (refKey s.guest_id == some g)) = true
      · have e : seatAssignedTable g tid sid t
            = { t with seats := t.seats.map (clearSeatStep g) } := by
          unfold seatAssignedTable
          rw [if_neg hta, if_pos h2]
        rw [e] at hs'
        rw [show ({ t with seats := t.seats.map (clearSeatStep g) } : Table).seats
          = t.seats.map (clearSeatStep g) from rfl, List.mem_map] at hs'
        obtain ⟨s, hs, rfl⟩ := hs'
        have hfalse := clearSeatStep_isRef_self g s (hR t ht s hs)
        unfold isRef at hfalse
        rw [hcontra] at hfalse
        simp at hfalse
      · have e : seatAssignedTable g tid sid t = t := by
          unfold seatAssignedTable
          rw [if_neg hta, if_neg h2]
        rw [e] at hs'
        apply List.any_eq_false.mp (Bool.eq_false_iff.mpr h2) s' hs'
        have hsome : s'.guest_id.isSome = true := by
          cases ho : s'.guest_id with
          | none => rw [ho] at hcontra; simp [refKey] at hcontra
          | some v => rfl
        rw [hR t ht s' hs', hsome, hcontra]
        simp

/-- One well-formed seat event preserves layout well-formedness and the
uniqueness invariant. -/
theorem seatEvent_preserves_inv (e : SeatEvent) (L : Layout)
    (hWF : LayoutWF L.tables) (hU : UniqueRefs L.tables)
    (he : SeatEventWF e) :
    LayoutWF (applySeatEvent e L).tables ∧ UniqueRefs (applySeatEvent e L).tables := by
  cases e with
  | assign d => exact ⟨layoutWF_assign d L he hWF, uniqueRefs_assign d L hWF hU⟩
  | unassign d => exact ⟨layoutWF_unassign d L hWF, uniqueRefs_unassign d L hU⟩

theorem seatEvents_preserve_inv :
    ∀ (es : List SeatEvent) (L : Layout), LayoutWF L.tables → UniqueRefs L.tables →
      (∀ e ∈ es, SeatEventWF e) →
      LayoutWF (applySeatEvents es L).tables ∧ UniqueRefs (applySeatEvents es L).tables := by
  intro es
  induction es with
  | nil => intro L h1 h2 _; exact ⟨h1, h2⟩
  | cons e es ih =>
      intro L h1 h2 hwf
      have hstep := seatEvent_preserves_inv e L h1 h2 (hwf e (by simp))
      exact ih (applySeatEvent e L) hstep.1 hstep.2 fun e2 he2 => hwf e2 (by simp [he2])

theorem countP_isRef_eq_filterMap (k : String) :
    ∀ ss : List Seat, ss.countP (isRef k)
      = (ss.filterMap fun s => refKey s.guest_id).countP (fun v => v == k) := by
  intro ss
  induction ss with
  | nil => rfl
  | cons s ss ih =>
      rw [List.countP_cons, List.filterMap_cons]
      cases ho : refKey s.guest_id with
      | none =>
          have hr : isRef k s = false := by simp [isRef, ho]
          simp [hr, ih]
      | some v =>
          have hr : isRef k s = (v == k) := by simp [isRef, ho]
          rw [List.countP_cons, ih, hr]

theorem layoutRefCount_eq_countP_keys (k : String) :
    ∀ ts : List Table, layoutRefCount k ts
      = (assignedKeys ts).countP (fun v => v == k) := by
  intro ts
  induction ts with
  | nil => rfl
  | cons t ts ih =>
      show tableRefCount k t + layoutRefCount k ts = _
      rw [show assignedKeys (t :: ts)
        = (t.seats.filterMap fun s => refKey s.guest_id) ++ assignedKeys ts from rfl]
      rw [List.countP_append, ih]
      show t.seats.countP (isRef k) + _ = _
      rw [countP_isRef_eq_filterMap]

/-- When the list of all stored guest keys is duplicate-free, the uniqueness
invariant holds (used to discharge `UniqueRefs` on concrete layouts). -/
theorem uniqueRefs_of_nodup_keys (ts : List Table)
    (h : (assignedKeys ts).Nodup) : UniqueRefs ts := by
  intro k
  rw [layoutRefCount_eq_countP_keys]
  have hb := countP_key_le_one (fun v : String => v) k (assignedKeys ts)
    (by simpa using h)
  simpa using hb

/-- C1: starting from a well-formed layout satisfying the invariant, every
state reachable by applying `seat_assigned` / `seat_unassigned`
notifications satisfies it: no guest id is the guest reference of more than
one seat across all tables.  Moreover, at any such reachable state, applying
a `seat_assigned` notification for guest G at seat S sets S's guest
reference to G and leaves no other seat (on the addressed table or on any
other table) whose guest reference equals G, in the same reconciliation
step. -/
theorem seat_reconciliation_unique_refs (L : Layout) (es : List SeatEvent)
    (hWF : LayoutWF L.tables) (hU : UniqueRefs L.tables)
    (hes : ∀ e ∈ es, SeatEventWF e) :
    UniqueRefs (applySeatEvents es L).tables ∧
    ∀ d : SeatEventData, AssignEffect d (applySeatEvents es L) := by
  obtain ⟨hWF2, hU2⟩ := seatEvents_preserve_inv es L hWF hU hes
  exact ⟨hU2, fun d => assignEffect_of_refsTruthy d _ fun t ht => (hWF2.2 t ht).2⟩

/-- Witness for C1 on the fixture layout: after reassigning guest g1 to
seat s4 of table B, the uniqueness invariant still holds. -/
theorem seat_reconciliation_unique_refs_witness :
    UniqueRefs (applySeatEvents
      [SeatEvent.assign
        { guest_id := JSId.str "g1", table_id := JSId.str "tableB",
          seat_id := JSId.str "s4", guest := none }] fixtureLayout).tables :=
  (seat_reconciliation_unique_refs fixtureLayout _ (by decide)
    (uniqueRefs_of_nodup_keys _ (by decide)) (by decide)).1

end EventCheckIn
